import Mathlib

/-!
Verification of the sales-data analytics engine (`src/utils/data_processor.py`).

The Python program operates on pandas DataFrames holding transaction records
with columns 日付 (date), 商品 (product), 顧客 (customer), 売上 (amount).
This file is a shallow embedding of `DataProcessor`:

* a raw row is a record of already-typed-or-missing cells (after
  `pd.to_datetime` / `pd.to_numeric(errors='coerce')`, a missing or
  uncoercible cell is `none`); dates are day numbers since 1970-01-01
  (a Thursday);
* `pandas` float columns that can hold NaN/inf are modelled by `PdFloat`;
* DataFrame row labels are modelled explicitly (a DataFrame built by
  `pd.read_csv` carries an integer RangeIndex, and boolean filtering and
  `sort_values` preserve the original labels), because `score_rfm`'s
  Series/index alignment and `filter_by_date`'s `df.index.date` access
  depend on them;
* `sort_values('日付')` is modelled with a stable insertion sort.
-/

namespace DataProcessor

attribute [local semireducible] Rat.mul Rat.inv Rat.add Rat.sub

/-- One raw input row after the dtype conversions at the top of
`_preprocess_data`: `pd.to_datetime` turns the 日付 cell into a timestamp
(day number) or NaT (`none`), `pd.to_numeric(errors='coerce')` turns the
売上 cell into a rational or NaN (`none`); 商品/顧客 hold an optional
string (missing cells are NaN, i.e. `none`). -/
structure RawRecord where
  date : Option ℤ
  product : Option String
  customer : Option String
  amount : Option ℚ
deriving DecidableEq, Repr

/-- A DataFrame row: the original integer row label (pandas RangeIndex
position from `pd.read_csv`) together with the cell values.  Boolean-mask
filtering and `sort_values` keep the original labels. -/
abbrev Row := ℕ × RawRecord

/-- The characters Python `str.isspace()` treats as whitespace: the ASCII
space/control whitespace 0x09-0x0d, 0x1c-0x1f and 0x20, next-line 0x85,
no-break space 0xa0, Ogham space 0x1680, the Unicode spaces
0x2000-0x200a, line/paragraph separators 0x2028/0x2029, narrow no-break
0x202f, medium mathematical space 0x205f and ideographic space 0x3000. -/
def pyIsSpace (c : Char) : Bool :=
  (9 ≤ c.val ∧ c.val ≤ 13) ∨ (28 ≤ c.val ∧ c.val ≤ 31) ∨ c.val = 32 ∨
  c.val = 133 ∨ c.val = 160 ∨ c.val = 5760 ∨ (8192 ≤ c.val ∧ c.val ≤ 8202) ∨
  c.val = 8232 ∨ c.val = 8233 ∨ c.val = 8239 ∨ c.val = 8287 ∨ c.val = 12288

/-- `str.strip()`: remove leading and trailing whitespace.  (Defined over
the character list so that it evaluates by kernel reduction.) -/
def pyStrip (s : String) : String :=
  String.mk (((s.data.dropWhile pyIsSpace).reverse.dropWhile pyIsSpace).reverse)

/-- Is an optional string cell non-null with non-whitespace content?
Mirrors `col.notna() & (col.str.strip() != '')`. -/
def strFieldOk : Option String → Bool
  | none => false
  | some s => pyStrip s ≠ ""

/-- Is the 売上 cell non-null and non-negative?  Mirrors
`df['売上'].notna() & (df['売上'] >= 0)`. -/
def amountOk : Option ℚ → Bool
  | none => false
  | some a => decide (0 ≤ a)

/-- The row-retention predicate of `_preprocess_data` (lines 38-46):
valid date, valid non-negative amount, non-empty product and customer
identifiers after stripping whitespace. -/
def keepRow (r : RawRecord) : Bool :=
  r.date.isSome && amountOk r.amount && strFieldOk r.product && strFieldOk r.customer

/-- Comparison used by `sort_values('日付')`: order rows by date.  All kept
rows have `isSome` dates, so the `getD` default is never consulted. -/
def rowLe (a b : Row) : Prop := a.2.date.getD 0 ≤ b.2.date.getD 0

instance : DecidableRel rowLe := fun a b =>
  inferInstanceAs (Decidable (a.2.date.getD 0 ≤ b.2.date.getD 0))

instance : IsTotal Row rowLe := ⟨fun a b => le_total (a.2.date.getD 0) (b.2.date.getD 0)⟩

instance : IsTrans Row rowLe := ⟨fun _ _ _ hab hbc => le_trans hab hbc⟩

/-- Errors raised during normalization.  `_preprocess_data` wraps every
internal failure in `ValueError("データの前処理に失敗しました: ...")`; we
keep the underlying cause: `emptyDataset` is
`ValueError("有効なデータがありません")` from `_validate_data`, and
`invalidDateRange` is `ValueError("日付の範囲が不正です")`. -/
inductive NormError where
  | emptyDataset
  | invalidDateRange
deriving DecidableEq, Repr

/-- `_validate_data`: raise if zero rows remain; then compare the min and
max of the 日付 column and raise if the range is negative (unreachable
after the sort, kept for fidelity).  The high-variance check only prints a
warning and does not affect the result. -/
def validateData (sorted : List Row) : Except NormError (List Row) :=
  if sorted.length = 0 then .error .emptyDataset
  else
    let ds := sorted.map (fun p => p.2.date.getD 0)
    match ds.max?, ds.min? with
    | some mx, some mn => if mx - mn < 0 then .error .invalidDateRange else .ok sorted
    | _, _ => .ok sorted

/-- `_preprocess_data` on a typed raw DataFrame: drop invalid rows, sort by
date, then run `_validate_data`.  Row labels survive untouched.

The sort here is a stable insertion sort.  The program's
`sort_values('日付')` uses numpy argsort with the default
`kind='quicksort'` (introsort), which is unstable: on frames of 17 or more
rows its partition step reorders rows with equal dates.  The two sorts
agree on which rows appear and on the date order, and differ only in the
relative order of tied dates in such frames; `normalizeQuick` below
embeds the actual numpy algorithm and is used for the idempotence
analysis, the one property that is sensitive to tie order. -/
def normalize (rows : List Row) : Except NormError (List Row) :=
  validateData (List.insertionSort rowLe (rows.filter (fun p => keepRow p.2)))

/-- The date key `sort_values('日付')` sorts by (kept rows always carry a
date). -/
def rowDate (p : Row) : ℤ := p.2.date.getD 0

/-- Placeholder row for bounds-checked array reads; never consulted: the
sort only touches indices inside the segment being sorted. -/
def defaultRow : Row := (0, ⟨none, none, none, none⟩)

/-- Bounds-checked array read. -/
def aGet (a : Array Row) (i : ℕ) : Row := a.getD i defaultRow

/-- Exchange two cells (the `INTP_SWAP` of numpy's argsort template). -/
def aSwap (a : Array Row) (i j : ℕ) : Array Row :=
  let vi := aGet a i
  let vj := aGet a j
  (a.setD i vj).setD j vi

/-- The `do ++pi; while (v[*pi] < vp)` walk of numpy's partition: advance
at least once, then keep advancing over cells strictly below the pivot.
The pivot value parked at `hi - 1` bounds the walk; the fuel (array size)
is never exhausted before that sentinel stops it. -/
def walkUp (a : Array Row) (vp : ℤ) (i : ℕ) (fuel : ℕ) : ℕ :=
  match fuel with
  | 0 => i + 1
  | fuel + 1 => if rowDate (aGet a (i + 1)) < vp then walkUp a vp (i + 1) fuel else i + 1

/-- The `do --pj; while (vp < v[*pj])` walk: retreat at least once, then
keep retreating over cells strictly above the pivot; the median-of-3
element at `lo` bounds the walk. -/
def walkDown (a : Array Row) (vp : ℤ) (j : ℕ) (fuel : ℕ) : ℕ :=
  match fuel with
  | 0 => j - 1
  | fuel + 1 => if vp < rowDate (aGet a (j - 1)) then walkDown a vp (j - 1) fuel else j - 1

/-- The inner exchange loop of numpy's partition: walk the two cursors
inward and swap the out-of-place pair until they cross, returning the
final left cursor.  On equal keys both walks stop immediately, so tied
rows are blindly exchanged — the source of the instability. -/
def partWalk (a : Array Row) (vp : ℤ) (i j : ℕ) (fuel : ℕ) : Array Row × ℕ :=
  match fuel with
  | 0 => (a, i)
  | fuel + 1 =>
      let i' := walkUp a vp i a.size
      let j' := walkDown a vp j a.size
      if j' ≤ i' then (a, i')
      else partWalk (aSwap a i' j') vp i' j' fuel

/-- One partition step of numpy's argsort introsort on the inclusive
segment `[lo, hi]`: median-of-3 of the first, middle and last cells (with
its three conditional swaps), pivot parked at `hi - 1`, inward exchange
walk, and the final swap placing the pivot at the returned split index. -/
def npPartition (a : Array Row) (lo hi : ℕ) : Array Row × ℕ :=
  let pm := lo + (hi - lo) / 2
  let a := if rowDate (aGet a pm) < rowDate (aGet a lo) then aSwap a pm lo else a
  let a := if rowDate (aGet a hi) < rowDate (aGet a pm) then aSwap a hi pm else a
  let a := if rowDate (aGet a pm) < rowDate (aGet a lo) then aSwap a pm lo else a
  let vp := rowDate (aGet a pm)
  let a := aSwap a pm (hi - 1)
  let w := partWalk a vp lo (hi - 1) (a.size + 1)
  (aSwap w.1 w.2 (hi - 1), w.2)

/-- The small-segment path of numpy's argsort introsort: segments of at
most `SMALL_QUICKSORT + 1 = 16` cells are sorted in place by the stable
index insertion sort, which coincides with a stable insertion sort of the
segment. -/
def insSortSegment (a : Array Row) (lo hi : ℕ) : Array Row :=
  let l := a.toList
  (l.take lo ++ List.insertionSort rowLe ((l.drop lo).take (hi + 1 - lo)) ++
    l.drop (hi + 1)).toArray

/-- The sift-down loop of numpy's `aheapsort` (1-based heap positions
mapped onto the segment starting at `lo`): descend towards the larger
child while it exceeds the sifted value, then write the value at the
final hole. -/
def heapSiftLoop (a : Array Row) (lo : ℕ) (tmp : Row) (i j n : ℕ) (fuel : ℕ) : Array Row :=
  match fuel with
  | 0 => a.setD (lo + i - 1) tmp
  | fuel + 1 =>
      if j ≤ n then
        let j := if j < n ∧ rowDate (aGet a (lo + j - 1)) < rowDate (aGet a (lo + j))
          then j + 1 else j
        if rowDate tmp < rowDate (aGet a (lo + j - 1)) then
          heapSiftLoop (a.setD (lo + i - 1) (aGet a (lo + j - 1))) lo tmp j (2 * j) n fuel
        else a.setD (lo + i - 1) tmp
      else a.setD (lo + i - 1) tmp

/-- numpy's `aheapsort` on the inclusive segment `[lo, hi]`: build the max
heap from the last parent down, then repeatedly swap the root behind the
shrinking heap and sift down.  This is the introsort fallback once the
depth budget of a branch is exhausted. -/
def npAHeapsortRange (a : Array Row) (lo hi : ℕ) : Array Row :=
  let n := hi + 1 - lo
  let a := (List.range (n / 2)).foldl (fun acc k =>
    let l := n / 2 - k
    heapSiftLoop acc lo (aGet acc (lo + l - 1)) l (2 * l) n (n + 1)) a
  (List.range (n - 1)).foldl (fun acc k =>
    let m := n - k
    let tmp := aGet acc (lo + m - 1)
    let acc := acc.setD (lo + m - 1) (aGet acc lo)
    heapSiftLoop acc lo tmp 1 2 (m - 1) (n + 1)) a

/-- numpy's argsort introsort (`aquicksort`) on the inclusive segment
`[lo, hi]`: segments longer than `SMALL_QUICKSORT = 15` pointer steps
(17 or more cells) are partitioned — unless the branch's depth budget is
spent, in which case the segment is heapsorted — and both sides are
sorted with the budget decremented; smaller segments fall through to the
stable insertion sort.  The fuel dominates the recursion depth and is
never exhausted. -/
def npQsortRange (a : Array Row) (lo hi : ℕ) (cdepth : ℤ) (fuel : ℕ) : Array Row :=
  match fuel with
  | 0 => a
  | fuel + 1 =>
      if 15 < hi - lo then
        if cdepth < 0 then npAHeapsortRange a lo hi
        else
          let part := npPartition a lo hi
          let aL := npQsortRange part.1 lo (part.2 - 1) (cdepth - 1) fuel
          npQsortRange aL (part.2 + 1) hi (cdepth - 1) fuel
      else insSortSegment a lo hi

/-- `sort_values('日付')` as the program actually executes it: pandas
`nargsort` calls `values.argsort(kind='quicksort')`, which for datetime64
values is numpy's generic argsort introsort with a depth budget of
`2 * npy_get_msb(n)` (`npy_get_msb = Nat.log2`). -/
def sortValuesQuick (rows : List Row) : List Row :=
  (npQsortRange rows.toArray 0 (rows.length - 1)
    (2 * (Nat.log2 rows.length : ℤ)) (rows.length + 1)).toList

/-- `_preprocess_data` with the faithful unstable sort: identical to
`normalize` except that ties of 17-or-more-row frames are ordered exactly
as numpy orders them. -/
def normalizeQuick (rows : List Row) : Except NormError (List Row) :=
  validateData (sortValuesQuick (rows.filter (fun p => keepRow p.2)))

/-- A pandas index: either an integer index (labels of a RangeIndex, as
produced by `pd.read_csv` and preserved by `_preprocess_data`) or a
DatetimeIndex of day numbers. -/
inductive PdIndex where
  | intIdx (labels : List ℕ)
  | datetimeIdx (ds : List ℤ)
deriving DecidableEq, Repr

/-- The `.date` attribute access `df.index.date`: only a DatetimeIndex has
it; on an integer index the attribute lookup raises `AttributeError`. -/
def PdIndex.dateAttr : PdIndex → Except String (List ℤ)
  | .intIdx _ => .error "AttributeError: index object has no attribute date"
  | .datetimeIdx ds => .ok ds

/-- The index of the processed DataFrame `self.df`: the preserved integer
row labels. -/
def dfIndex (rows : List Row) : PdIndex := .intIdx (rows.map Prod.fst)

/-- `filter_by_date(start_date, end_date)`: copies `self.df` and, for each
given bound, reads `df.index.date` and keeps the rows within the bound. -/
def filterByDate (rows : List Row) (startDate endDate : Option ℤ) :
    Except String (List Row) := do
  let df := rows
  let df1 ← match startDate with
    | none => pure df
    | some sd => do
        let ds ← (dfIndex df).dateAttr
        pure (((df.zip ds).filter (fun p => decide (sd ≤ p.2))).map Prod.fst)
  let df2 ← match endDate with
    | none => pure df1
    | some ed => do
        let ds ← (dfIndex df1).dateAttr
        pure (((df1.zip ds).filter (fun p => decide (p.2 ≤ ed))).map Prod.fst)
  return df2

/-- Era-based conversion from a day number (days since 1970-01-01) to a
civil (year, month, day) triple; `Int.ediv`/`Int.emod` give the floor
division the algorithm needs. -/
def civilFromDays (z : ℤ) : ℤ × ℤ × ℤ :=
  let z' := z + 719468
  let era := Int.ediv z' 146097
  let doe := Int.emod z' 146097
  let yoe := Int.ediv (doe - Int.ediv doe 1460 + Int.ediv doe 36524 - Int.ediv doe 146096) 365
  let y := yoe + era * 400
  let doy := doe - (365 * yoe + Int.ediv yoe 4 - Int.ediv yoe 100)
  let mp := Int.ediv (5 * doy + 2) 153
  let d := doy - Int.ediv (153 * mp + 2) 5 + 1
  let m := mp + (if mp < 10 then 3 else -9)
  (y + (if m ≤ 2 then 1 else 0), m, d)

/-- Era-based conversion from a civil (year, month, day) triple to a day
number. -/
def daysFromCivil (y m d : ℤ) : ℤ :=
  let y' := y - (if m ≤ 2 then 1 else 0)
  let era := Int.ediv y' 400
  let yoe := y' - era * 400
  let doy := Int.ediv (153 * (m + (if 2 < m then -3 else 9)) + 2) 5 + d - 1
  let doe := yoe * 365 + Int.ediv yoe 4 - Int.ediv yoe 100 + doy
  era * 146097 + doe - 719468

/-- The pandas `ME` bucket label of a date: the last calendar day of its
month. -/
def monthEnd (z : ℤ) : ℤ :=
  let c := civilFromDays z
  if c.2.1 = 12 then daysFromCivil (c.1 + 1) 1 1 - 1
  else daysFromCivil c.1 (c.2.1 + 1) 1 - 1

/-- The pandas `W-MON` bucket label of a date: the Monday on or after it
(weekly bins are right-closed and labelled by their Monday right edge).
Day 0 is Thursday 1970-01-01, so Mondays are the days `d` with
`d ≡ 4 [ZMOD 7]`. -/
def mondayOnOrAfter (z : ℤ) : ℤ := z + Int.emod (4 - z) 7

/-- The three supported period granularities 日次 / 週次 / 月次, mapped by
the source's `freq_map` to the pandas frequencies `D` / `W-MON` / `ME`. -/
inductive Period where
  | daily
  | weekly
  | monthly
deriving DecidableEq, Repr

/-- The bucket label a date falls into for a given granularity. -/
def bucketOf : Period → ℤ → ℤ
  | .daily, d => d
  | .weekly, d => mondayOnOrAfter d
  | .monthly, d => monthEnd d

/-- Collapse consecutive equal bucket labels (consecutive calendar days in
the same bin share a label). -/
def consDedup : List ℤ → List ℤ
  | [] => []
  | [a] => [a]
  | a :: b :: t => if a = b then consDedup (b :: t) else a :: consDedup (b :: t)

/-- A canonical (validated) record: every field present and typed.  This is
the shape of the rows that survive `_preprocess_data`. -/
structure Record where
  date : ℤ
  product : String
  customer : String
  amount : ℚ
deriving DecidableEq, Repr

/-- View the surviving rows as canonical records (all four cells of a kept
row are present). -/
def toRecords (rows : List Row) : List Record :=
  rows.filterMap (fun p =>
    match p.2.date, p.2.product, p.2.customer, p.2.amount with
    | some d, some pr, some c, some a => some ⟨d, pr, c, a⟩
    | _, _, _, _ => none)

/-- A pandas float cell: NaN, ±inf, or a finite value (kept exact as a
rational). -/
inductive PdFloat where
  | nan
  | inf
  | ninf
  | fin (q : ℚ)
deriving DecidableEq, Repr

/-- numpy rounding of a rational to the nearest integer, ties to even
(the mode used by `DataFrame.round`). -/
def roundHalfEven (q : ℚ) : ℤ :=
  let f := ⌊q⌋
  let r := q - f
  if r < 1 / 2 then f
  else if 1 / 2 < r then f + 1
  else if Int.emod f 2 = 0 then f else f + 1

/-- `round(2)` on a finite value. -/
def round2q (q : ℚ) : ℚ := (roundHalfEven (q * 100) : ℚ) / 100

/-- `round(0)` on a finite value. -/
def round0q (q : ℚ) : ℚ := (roundHalfEven q : ℚ)

/-- `round(2)` on a float cell: NaN and ±inf round to themselves. -/
def round2 : PdFloat → PdFloat
  | .nan => .nan
  | .inf => .inf
  | .ninf => .ninf
  | .fin q => .fin (round2q q)

/-- One step of `Series.pct_change`: `cur / prev - 1` with IEEE semantics
for a zero previous value (`0/0 = NaN`, `x/0 = ±inf`). -/
def pctStep (prev cur : ℚ) : PdFloat :=
  if prev = 0 then
    if 0 < cur then .inf else if cur < 0 then .ninf else .nan
  else .fin (cur / prev - 1)

/-- Tail of `pct_change`: each entry divides by its predecessor. -/
def pctGo : ℚ → List ℚ → List PdFloat
  | _, [] => []
  | prev, c :: t => pctStep prev c :: pctGo c t

/-- `Series.pct_change()`: the first entry has no predecessor and is NaN;
entry `i + 1` is `xs[i+1] / xs[i] - 1`. -/
def pctChange : List ℚ → List PdFloat
  | [] => []
  | x :: t => .nan :: pctGo x t

/-- Multiply a float cell by 100 (the `* 100` after `pct_change`). -/
def mul100 : PdFloat → PdFloat
  | .nan => .nan
  | .inf => .inf
  | .ninf => .ninf
  | .fin q => .fin (q * 100)

/-- `fillna(0)` on a float cell. -/
def fillna0 : PdFloat → PdFloat
  | .nan => .fin 0
  | v => v

/-- The period axis of `groupby(pd.Grouper(freq=...))` / `resample`: every
bin between the bucket of the minimum date and the bucket of the maximum
date, including empty bins.  Formed by bucketing every calendar day of the
observed span and collapsing runs of equal labels. -/
def periodAxis (p : Period) (records : List Record) : List ℤ :=
  match (records.map Record.date).min?, (records.map Record.date).max? with
  | some a, some b =>
      consDedup ((List.range (b - a + 1).toNat).map (fun i => bucketOf p (a + Int.ofNat i)))
  | _, _ => []

/-- Total 売上 of the records falling in one bucket (`sum`; the sum of an
empty bin is 0). -/
def bucketSum (p : Period) (records : List Record) (b : ℤ) : ℚ :=
  ((records.filter (fun r => bucketOf p r.date = b)).map Record.amount).sum

/-- Number of records falling in one bucket (`count`). -/
def bucketCount (p : Period) (records : List Record) (b : ℤ) : ℕ :=
  (records.filter (fun r => bucketOf p r.date = b)).length

/-- One table of `calculate_time_series_metrics`: the period axis, the
summed / counted / averaged 売上 per bucket (after the table-wide
`fillna(0)` and final `round(2)`), and the 前期比 column, which is
`pct_change() * 100` of the sum column followed only by the final
`round(2)` — no `fillna` runs after `pct_change` in this method.  The
std/min/max display columns involve no further logic (std is an
irrational square root) and are not modelled; no claim mentions them. -/
structure TSTable where
  periods : List ℤ
  sums : List ℚ
  counts : List ℕ
  means : List ℚ
  pct : List PdFloat
deriving DecidableEq, Repr

/-- Build the daily/weekly/monthly table of
`calculate_time_series_metrics` for one granularity: aggregate per bucket,
`fillna(0)` (which turns the NaN mean of an empty bin into 0; sums and
counts of empty bins are already 0), append the 前期比 column computed
from the filled sum column, and `round(2)` the table. -/
def tsTable (p : Period) (records : List Record) : TSTable :=
  let axis := periodAxis p records
  let sums := axis.map (bucketSum p records)
  { periods := axis
    sums := sums.map round2q
    counts := axis.map (bucketCount p records)
    means := axis.map (fun b =>
      if bucketCount p records b = 0 then 0
      else round2q (bucketSum p records b / (bucketCount p records b : ℚ)))
    pct := (pctChange sums).map (fun v => round2 (mul100 v)) }

/-- The result bundle of `calculate_time_series_metrics`. -/
structure TSBundle where
  daily : TSTable
  weekly : TSTable
  monthly : TSTable
deriving DecidableEq, Repr

/-- `calculate_time_series_metrics`: the three period-indexed tables. -/
def timeSeriesMetrics (records : List Record) : TSBundle :=
  { daily := tsTable .daily records
    weekly := tsTable .weekly records
    monthly := tsTable .monthly records }

/-- The full analysis pipeline as driven by the app: construct the
processor (normalisation happens in `__init__`) and only then compute
metrics.  A normalisation failure therefore yields no metrics at all. -/
def analysisPipeline (rows : List Row) : Except NormError TSBundle :=
  (normalize rows).map (fun l => timeSeriesMetrics (toRecords l))

/-- The column `calculate_growth_rates` groups by (商品 or 顧客). -/
inductive GroupField where
  | product
  | customer
deriving DecidableEq, Repr

/-- Cell selector of a group field. -/
def GroupField.sel : GroupField → Record → String
  | .product => Record.product
  | .customer => Record.customer

/-- The pivot index of `calculate_growth_rates`: the bucket labels that
actually occur in the grouped data, ascending.  (A `pd.Grouper` combined
with a second group key groups by the observed binned values only; the
`%Y-%m-%d` / `%Y-%m` strings of `期間` sort chronologically.) -/
def observedPeriods (p : Period) (records : List Record) : List ℤ :=
  List.insertionSort (fun a b => a ≤ b) ((records.map (fun r => bucketOf p r.date)).dedup)

/-- The pivot columns: the distinct group values, ascending (pivot_table
sorts its column labels). -/
def observedGroups (g : GroupField) (records : List Record) : List String :=
  List.insertionSort (fun a b => a ≤ b) ((records.map g.sel).dedup)

/-- One cell of the pivot: summed 売上 of one (period, group) pair;
`fill_value=0` makes missing cells 0, which coincides with the empty sum. -/
def cellSum (g : GroupField) (p : Period) (records : List Record)
    (b : ℤ) (grp : String) : ℚ :=
  ((records.filter (fun r => bucketOf p r.date = b ∧ g.sel r = grp)).map Record.amount).sum

/-- One column of the pivot table of `calculate_growth_rates`, over the
observed-period axis. -/
def pivotColumn (g : GroupField) (p : Period) (records : List Record)
    (grp : String) : List ℚ :=
  (observedPeriods p records).map (fun b => cellSum g p records b grp)

/-- The per-entry postprocessing of `calculate_growth_rates`:
`pct_change(fill_method=None) * 100`, then `fillna(0)`, then `round(2)`. -/
def growthStep (v : PdFloat) : PdFloat := round2 (fillna0 (mul100 v))

/-- One column of the growth-rate table. -/
def growthColumn (g : GroupField) (p : Period) (records : List Record)
    (grp : String) : List PdFloat :=
  (pctChange (pivotColumn g p records grp)).map growthStep

/-- `calculate_growth_rates`: percent change along the period axis of the
period × group pivot of summed 売上, one column per group value. -/
def growthRates (records : List Record) (g : GroupField) (p : Period) :
    List (String × List PdFloat) :=
  (observedGroups g records).map (fun grp => (grp, growthColumn g p records grp))

/-- `rolling(window=w, min_periods=mp).mean()`: entry `i` averages the up
to `w` entries ending at `i` and is NaN (`none`) when fewer than `mp`
entries are available. -/
def rollingMeanOpt (w mp : ℕ) (xs : List ℚ) : List (Option ℚ) :=
  (List.range xs.length).map (fun i =>
    let win := (xs.take (i + 1)).drop (i + 1 - w)
    if mp ≤ win.length then some (win.sum / (win.length : ℚ)) else none)

/-- The table returned by `analyze_trends` (after its final `round(0)`). -/
structure TrendTable where
  periods : List ℤ
  sales : List ℚ
  ma7 : List (Option ℚ)
  ma30 : List (Option ℚ)
deriving DecidableEq, Repr

/-- `analyze_trends`: resample 売上 at the requested granularity (empty
bins sum to 0), and take 7-period and 30-period rolling means with
`min_periods=1`; the whole table is rounded to integers. -/
def analyzeTrends (records : List Record) (p : Period) : TrendTable :=
  let axis := periodAxis p records
  let sales := axis.map (bucketSum p records)
  { periods := axis
    sales := sales.map round0q
    ma7 := (rollingMeanOpt 7 1 sales).map (Option.map round0q)
    ma30 := (rollingMeanOpt 30 1 sales).map (Option.map round0q) }

/-- A pandas Series index label: either an integer (from a default
RangeIndex, as carried by a freshly built `pd.Series([...])`) or a string
(a customer name, as carried by the index of `df.groupby('顧客')`). -/
inductive SIdx where
  | int (n : ℕ)
  | str (s : String)
deriving DecidableEq, Repr

/-- The row index of the `rfm` frame: the distinct 顧客 values, ascending
(`groupby` sorts its keys). -/
def sortedCustomers (records : List Record) : List String :=
  List.insertionSort (fun a b => a ≤ b) ((records.map Record.customer).dedup)

/-- Dates of one customer's transactions. -/
def custDates (records : List Record) (c : String) : List ℤ :=
  (records.filter (fun r => r.customer = c)).map Record.date

/-- `Recency` of a customer: days between the dataset-wide maximum date
(`current_date`) and the customer's own maximum date. -/
def recencyOf (records : List Record) (c : String) : ℤ :=
  ((records.map Record.date).max?).getD 0 - ((custDates records c).max?).getD 0

/-- `Frequency` of a customer: transaction count. -/
def frequencyOf (records : List Record) (c : String) : ℕ :=
  (records.filter (fun r => r.customer = c)).length

/-- `Monetary` of a customer: total 売上. -/
def monetaryOf (records : List Record) (c : String) : ℚ :=
  ((records.filter (fun r => r.customer = c)).map Record.amount).sum

/-- A measure column of the `rfm` frame: customer-labelled values. -/
def measureSeries (records : List Record) (f : String → ℚ) : List (SIdx × ℚ) :=
  (sortedCustomers records).map (fun c => (SIdx.str c, f c))

/-- Linear-interpolation quantile of an ascending list (the numpy default
used by `pd.qcut`); the list is assumed non-empty. -/
def quantileSorted (s : List ℚ) (p : ℚ) : ℚ :=
  let pos := p * ((s.length : ℚ) - 1)
  let i := (⌊pos⌋).toNat
  let g := pos - (⌊pos⌋ : ℚ)
  let a := s.getD i 0
  let b := s.getD (i + 1) a
  a + g * (b - a)

/-- Which quartile bin a value falls into, given the three interior edges;
bins are right-closed, and everything at or below the first interior edge
(including the minimum) is bin 0. -/
def binIdx (e1 e2 e3 v : ℚ) : ℤ :=
  if v ≤ e1 then 0 else if v ≤ e2 then 1 else if v ≤ e3 then 2 else 3

/-- `pd.qcut(x, q=4, labels=labels, duplicates='drop')`: compute the five
quartile edges; with `duplicates='drop'` coincident edges are merged, and
if fewer than 4 bins remain the 4 given labels no longer fit, so qcut
raises `ValueError` (`none`).  Otherwise each value gets its bin's label:
1..4 ascending, or 4..1 when `reverse` (the `Recency` scoring). -/
def qcutLabel (e1 e2 e3 : ℚ) (reverse : Bool) (v : ℚ) : ℤ :=
  if reverse then 4 - binIdx e1 e2 e3 v else binIdx e1 e2 e3 v + 1

def qcut4 (vals : List ℚ) (reverse : Bool) : Option (List ℤ) :=
  let s := List.insertionSort (fun a b => a ≤ b) vals
  let edges := [quantileSorted s 0, quantileSorted s (1 / 4), quantileSorted s (1 / 2),
    quantileSorted s (3 / 4), quantileSorted s 1]
  if edges.dedup.length ≠ 5 then none
  else
    some (vals.map (qcutLabel (quantileSorted s (1 / 4)) (quantileSorted s (1 / 2))
      (quantileSorted s (3 / 4)) reverse))

/-- `score_rfm`: the aggregated measures of canonical records contain no
missing values, so the `x.isnull().any()` branch is unreachable and is not
modelled.  If the measure has a single distinct value, or quartile binning
fails, the result is `pd.Series([2] * len(x))` — a series carrying a fresh
integer RangeIndex, not the customer index.  Only the `pd.qcut` result
keeps the customer labels of `x`. -/
def scoreRFM (s : List (SIdx × ℚ)) (reverse : Bool) : List (SIdx × ℤ) :=
  let vals := s.map Prod.snd
  if vals.dedup.length = 1 then
    (List.range s.length).map (fun i => (SIdx.int i, 2))
  else
    match qcut4 vals reverse with
    | some labels => (s.map Prod.fst).zip labels
    | none => (List.range s.length).map (fun i => (SIdx.int i, 2))

/-- Column assignment `rfm['R'] = series` followed by `fillna(1)`:
assignment aligns the series on the frame's customer index, so a label
missing from the series (in particular every label, when the series
carries an integer RangeIndex) becomes NaN, which `fillna(1)` then turns
into score 1. -/
def colAssign (customers : List String) (scores : List (SIdx × ℤ)) : List ℤ :=
  customers.map (fun c =>
    (((scores.find? (fun pr => pr.1 = SIdx.str c)).map Prod.snd)).getD 1)

/-- `segment_customer`: first matching rule wins. -/
def segmentCustomer (r f m : ℤ) : String :=
  if 3 ≤ r ∧ 3 ≤ f ∧ 3 ≤ m then "VIPカスタマー"
  else if 3 ≤ r ∧ 3 ≤ f then "優良カスタマー"
  else if 2 ≤ r ∧ 2 ≤ f then "通常カスタマー"
  else "要フォローカスタマー"

/-- One row of the final `rfm` frame. -/
structure RFMProfile where
  customer : String
  recency : ℤ
  frequency : ℕ
  monetary : ℚ
  r : ℤ
  f : ℤ
  m : ℤ
  segment : String
deriving DecidableEq, Repr

/-- The RFM part of `calculate_customer_metrics`: aggregate the three
measures per customer, score each with `score_rfm` (Recency reversed),
assign the score series into the customer-indexed frame (with the
alignment semantics of `colAssign`), and classify each row. -/
def computeRFM (records : List Record) : List RFMProfile :=
  let customers := sortedCustomers records
  let rCol := colAssign customers
    (scoreRFM (measureSeries records (fun c => (recencyOf records c : ℚ))) true)
  let fCol := colAssign customers
    (scoreRFM (measureSeries records (fun c => (frequencyOf records c : ℚ))) false)
  let mCol := colAssign customers
    (scoreRFM (measureSeries records (fun c => monetaryOf records c)) false)
  (customers.zip (rCol.zip (fCol.zip mCol))).map (fun x =>
    { customer := x.1
      recency := recencyOf records x.1
      frequency := frequencyOf records x.1
      monetary := monetaryOf records x.1
      r := x.2.1
      f := x.2.2.1
      m := x.2.2.2
      segment := segmentCustomer x.2.1 x.2.2.1 x.2.2.2 })

/-- The column labels of the final `rfm` frame (always assigned by
`calculate_customer_metrics`). -/
def rfmColumns (profiles : List RFMProfile) : List String :=
  match profiles with
  | _ => ["Recency", "Frequency", "Monetary", "R", "F", "M", "セグメント"]

/-- Total 売上 on one date. -/
def sumOnDate (df : List Record) (d : ℤ) : ℚ :=
  ((df.filter (fun r => r.date = d)).map Record.amount).sum

/-- The distinct observed dates. -/
def uniqueDates (df : List Record) : List ℤ := (df.map Record.date).dedup

/-- Total 売上 of one entity (product or customer value). -/
def entityTotal (df : List Record) (g : GroupField) (v : String) : ℚ :=
  ((df.filter (fun r => g.sel r = v)).map Record.amount).sum

/-- Entity total re-derived through per-(date, entity) subtotals. -/
def entityTotalViaDaily (df : List Record) (g : GroupField) (v : String) : ℚ :=
  ((uniqueDates df).map (fun d =>
    ((df.filter (fun r => r.date = d ∧ g.sel r = v)).map Record.amount).sum)).sum

/-- The keys of the result bundle of `calculate_time_series_metrics`. -/
def tsKeys (b : TSBundle) : List String :=
  match b with
  | _ => ["daily", "weekly", "monthly"]

/-- The `try` body of `validate_analysis_results`: the eight checks, in
the dict-insertion order of the source.  The only operation that can raise
within this model is `pd.date_range(df['日付'].min(), df['日付'].max())`
in check 2, which fails on the NaT bounds of an empty frame (the division
by `len(df)` in check 8 would also raise, but check 2 raises first).  The
outlier test `abs(x - mean) > 3 * std` (sample std, `ddof=1`) is expressed
on squares to stay in the rationals, and an undefined std (fewer than two
rows) compares as false, exactly as a NaN comparison does. -/
def validationBody (df : List Record) : Except String (List (String × Bool)) := do
  let total := (df.map Record.amount).sum
  let c1 := decide (|total - ((uniqueDates df).map (sumOnDate df)).sum| < 1 / 100)
  let c2 ← match (df.map Record.date).min?, (df.map Record.date).max? with
    | some mn, some mx =>
        pure (decide (((uniqueDates df).length : ℤ) ≤ mx - mn + 1))
    | _, _ => Except.error "ValueError: neither start nor end can be NaT"
  let c3 := ((df.map Record.product).dedup).all (fun v =>
    decide (|entityTotal df .product v - entityTotalViaDaily df .product v| < 1 / 100))
  let c4 := ((df.map Record.customer).dedup).all (fun v =>
    decide (|entityTotal df .customer v - entityTotalViaDaily df .customer v| < 1 / 100))
  let gr := growthRates df .product .monthly
  let c5 := (!(observedPeriods .monthly df).isEmpty && !(observedGroups .product df).isEmpty)
    && !(gr.all (fun col => col.2.all (fun v => v = .nan)))
  let c6 := (["R", "F", "M", "セグメント"]).all (fun c => (rfmColumns (computeRFM df)).contains c)
  let c7 := (["daily", "weekly", "monthly"]).all (fun k => (tsKeys (timeSeriesMetrics df)).contains k)
  let c8 ← match df.length with
    | 0 => Except.error "ZeroDivisionError: division by zero"
    | Nat.succ _ =>
        let n := df.length
        let mean := total / (n : ℚ)
        let variance := ((df.map (fun r => (r.amount - mean) ^ 2)).sum) / ((n : ℚ) - 1)
        let outCount := if n < 2 then 0
          else (df.filter (fun r => 9 * variance < (r.amount - mean) ^ 2)).length
        pure (decide ((outCount : ℚ) / (n : ℚ) < 1 / 100))
  return [("売上集計整合性", c1), ("日付の連続性", c2), ("商品別集計整合性", c3),
    ("顧客別集計整合性", c4), ("成長率計算", c5), ("RFM分析", c6),
    ("時系列分析", c7), ("異常値の割合", c8)]

/-- `validate_analysis_results`: run the checks inside `try`; any internal
exception is caught and downgraded to the single report entry
`{'エラー': False}`, so the caller always receives a report. -/
def validateAnalysisResults (df : List Record) : List (String × Bool) :=
  match validationBody df with
  | .ok r => r
  | .error _ => [("エラー", false)]

/-- Concrete raw input used to exercise `normalize`: two valid rows (out
of date order) and one row with a missing date. -/
def exRows : List Row :=
  [(0, ⟨some 3, some "商品B", some "顧客2", some 40⟩),
   (1, ⟨some 1, some "商品A", some "顧客1", some 100⟩),
   (2, ⟨none, some "商品A", some "顧客1", some 10⟩)]

/-- The canonical output of `normalize exRows`. -/
def exRowsOut : List Row :=
  [(1, ⟨some 1, some "商品A", some "顧客1", some 100⟩),
   (0, ⟨some 3, some "商品B", some "顧客2", some 40⟩)]

/-- A raw input whose only row is dropped (missing date). -/
def exRowsBad : List Row := [(0, ⟨none, some "商品A", some "顧客1", some 5⟩)]

/-- The two-transaction scenario from the specification:
1000 on day 0 and 3000 on day 1, one product, one customer. -/
def exRecords2 : List Record := [⟨0, "商品A", "顧客1", 1000⟩, ⟨1, "商品A", "顧客1", 3000⟩]

/-- The single-customer, single-transaction scenario. -/
def exRecords1 : List Record := [⟨0, "商品A", "顧客1", 100⟩]

/-- Seventeen valid rows sharing one date: the smallest frame shape on
which numpy's argsort takes the partition path and reorders ties. -/
def exRows17 : List Row :=
  (List.range 17).map (fun i => (i, ⟨some 0, some "商品A", some "顧客1", some 100⟩))

instance : DecidableEq (Except NormError (List Row)) := fun a b =>
  match a, b with
  | .error x, .error y =>
      if h : x = y then .isTrue (by rw [h]) else .isFalse (by intro hc; cases hc; exact h rfl)
  | .ok x, .ok y =>
      if h : x = y then .isTrue (by rw [h]) else .isFalse (by intro hc; cases hc; exact h rfl)
  | .error _, .ok _ => .isFalse (by intro hc; cases hc)
  | .ok _, .error _ => .isFalse (by intro hc; cases hc)

instance : DecidableEq (Except String (List Row)) := fun a b =>
  match a, b with
  | .error x, .error y =>
      if h : x = y then .isTrue (by rw [h]) else .isFalse (by intro hc; cases hc; exact h rfl)
  | .ok x, .ok y =>
      if h : x = y then .isTrue (by rw [h]) else .isFalse (by intro hc; cases hc; exact h rfl)
  | .error _, .ok _ => .isFalse (by intro hc; cases hc)
  | .ok _, .error _ => .isFalse (by intro hc; cases hc)

/-- Both success branches of `_validate_data` return the frame unchanged. -/
theorem validateData_ok {s t : List Row} (h : validateData s = .ok t) : t = s := by
  simp only [validateData] at h
  split at h
  · simp at h
  · split at h
    · split at h
      · simp at h
      · injection h with h
        exact h.symm
    · injection h with h
      exact h.symm

/-- A successful `normalize` returns exactly the sorted filtered rows. -/
theorem normalize_ok_eq {rows l : List Row} (h : normalize rows = .ok l) :
    l = List.insertionSort rowLe (rows.filter (fun p => keepRow p.2)) :=
  validateData_ok h

/-- C5: for every raw input on which `normalize` succeeds, every surviving
record has a present (parseable) date, a product identifier and a customer
identifier that are non-empty after trimming whitespace, and a present
non-negative amount; and the output is sorted by date ascending. -/
theorem claim_C5_normalize_output_valid_and_sorted (rows l : List Row)
    (h : normalize rows = .ok l) :
    (∀ p ∈ l, p.2.date.isSome = true ∧
      (∃ s, p.2.product = some s ∧ pyStrip s ≠ "") ∧
      (∃ s, p.2.customer = some s ∧ pyStrip s ≠ "") ∧
      (∃ a, p.2.amount = some a ∧ 0 ≤ a)) ∧
    List.Sorted rowLe l := by
  have hl := normalize_ok_eq h
  subst hl
  refine ⟨?_, List.sorted_insertionSort rowLe _⟩
  intro p hp
  have hp' : p ∈ rows.filter (fun p => keepRow p.2) := (List.mem_insertionSort rowLe).mp hp
  have hkeep : keepRow p.2 = true := (List.mem_filter.mp hp').2
  unfold keepRow at hkeep
  simp only [Bool.and_eq_true] at hkeep
  obtain ⟨⟨⟨hdate, hamt⟩, hprod⟩, hcust⟩ := hkeep
  refine ⟨hdate, ?_, ?_, ?_⟩
  · cases hsp : p.2.product with
    | none => rw [hsp] at hprod; simp [strFieldOk] at hprod
    | some s =>
        rw [hsp] at hprod
        exact ⟨s, rfl, by simpa [strFieldOk] using hprod⟩
  · cases hsc : p.2.customer with
    | none => rw [hsc] at hcust; simp [strFieldOk] at hcust
    | some s =>
        rw [hsc] at hcust
        exact ⟨s, rfl, by simpa [strFieldOk] using hcust⟩
  · cases hsa : p.2.amount with
    | none => rw [hsa] at hamt; simp [amountOk] at hamt
    | some a =>
        rw [hsa] at hamt
        exact ⟨a, rfl, by simpa [amountOk] using hamt⟩

/-- C5 witness: a concrete raw input on which the theorem applies. -/
theorem claim_C5_witness :
    normalize exRows = Except.ok exRowsOut ∧
    ((∀ p ∈ exRowsOut, p.2.date.isSome = true ∧
      (∃ s, p.2.product = some s ∧ pyStrip s ≠ "") ∧
      (∃ s, p.2.customer = some s ∧ pyStrip s ≠ "") ∧
      (∃ a, p.2.amount = some a ∧ 0 ≤ a)) ∧
    List.Sorted rowLe exRowsOut) :=
  ⟨by decide, claim_C5_normalize_output_valid_and_sorted exRows exRowsOut (by decide)⟩

/-- C6: if every row is dropped by the invalid-row filter, normalization
fails with the empty-dataset error and the pipeline yields no metrics. -/
theorem claim_C6_empty_dataset_error (rows : List Row)
    (h : rows.filter (fun p => keepRow p.2) = []) :
    normalize rows = .error .emptyDataset ∧
    analysisPipeline rows = .error .emptyDataset := by
  have hn : normalize rows = .error .emptyDataset := by
    unfold normalize
    rw [h]
    rfl
  exact ⟨hn, by unfold analysisPipeline; rw [hn]; rfl⟩

/-- C6 witness: a concrete raw input whose rows are all invalid. -/
theorem claim_C6_witness :
    exRowsBad.filter (fun p => keepRow p.2) = [] ∧
    (normalize exRowsBad = .error .emptyDataset ∧
      analysisPipeline exRowsBad = .error .emptyDataset) :=
  ⟨by decide, claim_C6_empty_dataset_error exRowsBad (by decide)⟩

/-- On at most 16 rows numpy's argsort never partitions: the whole frame
goes through the stable insertion-sort path, which is exactly the stable
insertion sort. -/
theorem sortValuesQuick_small (rows : List Row) (h : rows.length ≤ 16) :
    sortValuesQuick rows = List.insertionSort rowLe rows := by
  have hc : ¬ (15 < rows.length - 1 - 0) := by omega
  unfold sortValuesQuick
  simp only [npQsortRange]
  rw [if_neg hc]
  unfold insSortSegment
  simp only [Array.toList_toArray]
  rw [List.take_zero, List.drop_zero, List.take_of_length_le (by omega),
    List.drop_eq_nil_of_le (by omega)]
  simp

/-- C9 counterexample: on seventeen rows sharing one date, numpy's
partition step blindly exchanges tied rows (here a product of disjoint
transpositions), so the second `normalize` applies the same reordering
again and returns a differently ordered frame: `normalize (normalize x)`
differs from `normalize x`, refuting exact idempotence.  Both runs
succeed, so the failure is purely one of row order. -/
theorem counterexample_C9_quicksort_reorders_ties :
    ((normalizeQuick exRows17).bind normalizeQuick).toOption.isSome = true ∧
    (normalizeQuick exRows17).bind normalizeQuick ≠ normalizeQuick exRows17 := by
  constructor
  · decide
  · decide

/-- C9 amended: `normalize` is idempotent whenever at most 16 rows
survive the invalid-row filter — the regime in which `sort_values`' numpy
argsort runs its stable insertion-sort path; for 17 or more surviving
rows the unstable partition can reorder rows with equal dates, so exact
idempotence fails in general (see the counterexample). -/
theorem claim_C9_amended_idempotent_small (rows l : List Row)
    (hsmall : (rows.filter (fun p => keepRow p.2)).length ≤ 16)
    (h : normalizeQuick rows = .ok l) : normalizeQuick l = .ok l := by
  unfold normalizeQuick at h ⊢
  rw [sortValuesQuick_small _ hsmall] at h
  have hl : l = List.insertionSort rowLe (rows.filter (fun p => keepRow p.2)) :=
    validateData_ok h
  have hfilter : l.filter (fun p => keepRow p.2) = l := by
    rw [List.filter_eq_self]
    intro a ha
    rw [hl] at ha
    exact (List.mem_filter.mp ((List.mem_insertionSort rowLe).mp ha)).2
  have hsorted : List.Sorted rowLe l := by
    rw [hl]
    exact List.sorted_insertionSort rowLe _
  have hlen : l.length ≤ 16 := by
    rw [hl, List.length_insertionSort]
    exact hsmall
  rw [hfilter, sortValuesQuick_small _ hlen, hsorted.insertionSort_eq]
  rw [hl] at h ⊢
  exact h

/-- C9 witness: the amended theorem applied at a concrete small input. -/
theorem claim_C9_witness :
    (exRows.filter (fun p => keepRow p.2)).length ≤ 16 ∧
    normalizeQuick exRows = Except.ok exRowsOut ∧
    normalizeQuick exRowsOut = Except.ok exRowsOut :=
  ⟨by decide, by decide,
    claim_C9_amended_idempotent_small exRows exRowsOut (by decide) (by decide)⟩

/-- C10: the canonical frame keeps its original integer row labels, so
`filter_by_date` with any non-null bound reads `df.index.date` off an
integer index and raises `AttributeError`; with both bounds omitted it
returns the frame unchanged. -/
theorem claim_C10_filter_by_date_raises (rows l : List Row) (s e : Option ℤ)
    (_h : normalize rows = .ok l) (hse : s.isSome = true ∨ e.isSome = true) :
    filterByDate l s e = .error "AttributeError: index object has no attribute date" ∧
    filterByDate l none none = .ok l := by
  constructor
  · cases s with
    | some sd => rfl
    | none =>
        cases e with
        | some ed => rfl
        | none => simp at hse
  · rfl

/-- C10 witness: a concrete canonical frame and a concrete start bound. -/
theorem claim_C10_witness :
    normalize exRows = Except.ok exRowsOut ∧
    ((some (1 : ℤ)).isSome = true ∨ (none : Option ℤ).isSome = true) ∧
    (filterByDate exRowsOut (some 1) none =
        .error "AttributeError: index object has no attribute date" ∧
      filterByDate exRowsOut none none = .ok exRowsOut) :=
  ⟨by decide, by decide,
    claim_C10_filter_by_date_raises exRows exRowsOut (some 1) none (by decide) (by decide)⟩

theorem foldl_min_le_init (t : List ℤ) : ∀ x : ℤ, t.foldl min x ≤ x := by
  induction t with
  | nil => intro x; exact le_refl x
  | cons y t ih => intro x; exact le_trans (ih (min x y)) (min_le_left x y)

theorem le_foldl_max_init (t : List ℤ) : ∀ x : ℤ, x ≤ t.foldl max x := by
  induction t with
  | nil => intro x; exact le_refl x
  | cons y t ih => intro x; exact le_trans (le_max_left x y) (ih (max x y))

/-- The minimum of an integer list never exceeds its maximum. -/
theorem intList_min?_le_max? {l : List ℤ} {a b : ℤ}
    (ha : l.min? = some a) (hb : l.max? = some b) : a ≤ b := by
  cases l with
  | nil => simp at ha
  | cons x t =>
      rw [List.min?_cons'] at ha
      rw [List.max?_cons'] at hb
      injection ha with ha
      injection hb with hb
      rw [← ha, ← hb]
      exact le_trans (foldl_min_le_init t x) (le_foldl_max_init t x)

theorem consDedup_ne_nil : ∀ (l : List ℤ), l ≠ [] → consDedup l ≠ []
  | [], h => absurd rfl h
  | [_], _ => by simp [consDedup]
  | a :: b :: t, _ => by
      unfold consDedup
      split
      · exact consDedup_ne_nil (b :: t) (by simp)
      · simp

/-- The resampled period axis of a non-empty record set is non-empty. -/
theorem periodAxis_ne_nil (p : Period) (records : List Record)
    (h : records ≠ []) : periodAxis p records ≠ [] := by
  have hd : records.map Record.date ≠ [] := by
    simpa using h
  have hmin : (records.map Record.date).min?.isSome = true := by
    rw [Option.isSome_iff_ne_none]
    intro hc
    exact hd (List.min?_eq_none_iff.mp hc)
  have hmax : (records.map Record.date).max?.isSome = true := by
    rw [Option.isSome_iff_ne_none]
    intro hc
    exact hd (List.max?_eq_none_iff.mp hc)
  obtain ⟨a, ha⟩ := Option.isSome_iff_exists.mp hmin
  obtain ⟨b, hb⟩ := Option.isSome_iff_exists.mp hmax
  have hab : a ≤ b := intList_min?_le_max? ha hb
  unfold periodAxis
  rw [ha, hb]
  apply consDedup_ne_nil
  intro hc
  have hlen : ((List.range (b - a + 1).toNat).map (fun i => bucketOf p (a + Int.ofNat i))).length = 0 := by
    rw [hc]
    rfl
  rw [List.length_map, List.length_range] at hlen
  omega

/-- The head of a mapped `pct_change` column is the image of NaN. -/
theorem pctChange_map_head (xs : List ℚ) (g : PdFloat → PdFloat) (h : xs ≠ []) :
    ((pctChange xs).map g).head? = some (g .nan) := by
  cases xs with
  | nil => exact absurd rfl h
  | cons x t => rfl

/-- C2 counterexample: on the two-day scenario the first entry of the
daily 前期比 column is NaN, not 0 — `fillna(0)` runs before `pct_change`
in `calculate_time_series_metrics` and nothing fills the leading NaN. -/
theorem counterexample_C2_first_pct_is_nan :
    (timeSeriesMetrics exRecords2).daily.pct.head? = some PdFloat.nan ∧
    (timeSeriesMetrics exRecords2).daily.pct.head? ≠ some (PdFloat.fin 0) := by
  constructor
  · decide
  · decide

/-- The 前期比 column of every table starts with NaN on non-empty data. -/
theorem tsTable_pct_head (p : Period) (records : List Record) (h : records ≠ []) :
    (tsTable p records).pct.head? = some PdFloat.nan := by
  have hsums : (periodAxis p records).map (bucketSum p records) ≠ [] := by
    simpa using periodAxis_ne_nil p records h
  show ((pctChange ((periodAxis p records).map (bucketSum p records))).map
    (fun v => round2 (mul100 v))).head? = some PdFloat.nan
  rw [pctChange_map_head _ _ hsums]
  rfl

/-- C2 amended: for every non-empty canonical record set, the
period-over-period percent-change value of the chronologically first
period in each of the daily, weekly and monthly tables is NaN (undefined),
not 0. -/
theorem claim_C2_amended_first_pct_nan (records : List Record)
    (h : records ≠ []) :
    (timeSeriesMetrics records).daily.pct.head? = some PdFloat.nan ∧
    (timeSeriesMetrics records).weekly.pct.head? = some PdFloat.nan ∧
    (timeSeriesMetrics records).monthly.pct.head? = some PdFloat.nan :=
  ⟨tsTable_pct_head .daily records h, tsTable_pct_head .weekly records h,
    tsTable_pct_head .monthly records h⟩

/-- C2 witness: the amended theorem applied at the two-day scenario. -/
theorem claim_C2_witness :
    exRecords2 ≠ [] ∧
    ((timeSeriesMetrics exRecords2).daily.pct.head? = some PdFloat.nan ∧
      (timeSeriesMetrics exRecords2).weekly.pct.head? = some PdFloat.nan ∧
      (timeSeriesMetrics exRecords2).monthly.pct.head? = some PdFloat.nan) :=
  ⟨by decide, claim_C2_amended_first_pct_nan exRecords2 (by decide)⟩

theorem pctGo_getElem : ∀ (t : List ℚ) (prev a b : ℚ) (i : ℕ),
    (prev :: t)[i]? = some a → t[i]? = some b →
    (pctGo prev t)[i]? = some (pctStep a b) := by
  intro t
  induction t with
  | nil =>
      intro prev a b i _ h2
      simp at h2
  | cons c t' ih =>
      intro prev a b i h1 h2
      cases i with
      | zero =>
          simp only [List.getElem?_cons_zero, Option.some.injEq] at h1 h2
          subst h1
          subst h2
          simp [pctGo]
      | succ j =>
          simp only [List.getElem?_cons_succ] at h1 h2
          simp only [pctGo, List.getElem?_cons_succ]
          exact ih c a b j h1 h2

/-- `pct_change` entry `i + 1` is the step from `xs[i]` to `xs[i+1]`. -/
theorem pctChange_getElem {xs : List ℚ} {i : ℕ} {a b : ℚ}
    (h1 : xs[i]? = some a) (h2 : xs[i+1]? = some b) :
    (pctChange xs)[i+1]? = some (pctStep a b) := by
  cases xs with
  | nil => simp at h1
  | cons x t =>
      have h2' : t[i]? = some b := by simpa using h2
      show (PdFloat.nan :: pctGo x t)[i+1]? = _
      simp only [List.getElem?_cons_succ]
      exact pctGo_getElem t x a b i h1 h2'

/-- The postprocessing of `calculate_growth_rates` never produces NaN. -/
theorem growthStep_ne_nan (v : PdFloat) : growthStep v ≠ .nan := by
  cases v <;> simp [growthStep, mul100, fillna0, round2]

/-- The postprocessing turns NaN (in particular the leading entry and any
0→0 step) into 0. -/
theorem growthStep_nan : growthStep .nan = .fin 0 := by decide

/-- The observed-period pivot index is non-empty on non-empty data. -/
theorem observedPeriods_ne_nil (p : Period) (records : List Record)
    (h : records ≠ []) : observedPeriods p records ≠ [] := by
  unfold observedPeriods
  intro hc
  have hlen := congrArg List.length hc
  rw [List.length_insertionSort] at hlen
  have hded : (records.map (fun r => bucketOf p r.date)).dedup = [] :=
    List.length_eq_zero.mp hlen
  rw [List.dedup_eq_nil, List.map_eq_nil_iff] at hded
  exact h hded

/-- C3: for every non-empty canonical record set, any group field and any
period, the growth-rate table contains no NaN entry; each group's first
entry is 0, and a zero-to-zero transition in the underlying pivot column
also yields 0. -/
theorem claim_C3_growth_rates_no_nan (records : List Record) (g : GroupField)
    (p : Period) (h : records ≠ []) (gc : String × List PdFloat)
    (hgc : gc ∈ growthRates records g p) :
    (∀ v ∈ gc.2, v ≠ PdFloat.nan) ∧
    gc.2.head? = some (PdFloat.fin 0) ∧
    (∀ i, (pivotColumn g p records gc.1)[i]? = some (0 : ℚ) →
      (pivotColumn g p records gc.1)[i+1]? = some (0 : ℚ) →
      gc.2[i+1]? = some (PdFloat.fin 0)) := by
  unfold growthRates at hgc
  obtain ⟨grp, _hgrp, rfl⟩ := List.mem_map.mp hgc
  refine ⟨?_, ?_, ?_⟩
  · intro v hv
    obtain ⟨u, _, rfl⟩ := List.mem_map.mp hv
    exact growthStep_ne_nan u
  · show ((pctChange (pivotColumn g p records grp)).map growthStep).head? = _
    have hpiv : pivotColumn g p records grp ≠ [] := by
      unfold pivotColumn
      simpa using observedPeriods_ne_nil p records h
    rw [pctChange_map_head _ _ hpiv, growthStep_nan]
  · intro i h0 h1
    show ((pctChange (pivotColumn g p records grp)).map growthStep)[i+1]? = _
    rw [List.getElem?_map, pctChange_getElem h0 h1]
    have hstep : pctStep 0 0 = PdFloat.nan := by decide
    rw [hstep]
    simp [growthStep_nan]

/-- C3 witness: the theorem applied at the two-day scenario, daily period,
product grouping. -/
theorem claim_C3_witness :
    exRecords2 ≠ [] ∧
    ("商品A", [PdFloat.fin 0, PdFloat.fin 200]) ∈
      growthRates exRecords2 GroupField.product Period.daily ∧
    ((∀ v ∈ ("商品A", [PdFloat.fin 0, PdFloat.fin 200]).2, v ≠ PdFloat.nan) ∧
      ("商品A", [PdFloat.fin 0, PdFloat.fin 200]).2.head? = some (PdFloat.fin 0) ∧
      (∀ i, (pivotColumn GroupField.product Period.daily exRecords2
          ("商品A", [PdFloat.fin 0, PdFloat.fin 200]).1)[i]? = some (0 : ℚ) →
        (pivotColumn GroupField.product Period.daily exRecords2
          ("商品A", [PdFloat.fin 0, PdFloat.fin 200]).1)[i+1]? = some (0 : ℚ) →
        ("商品A", [PdFloat.fin 0, PdFloat.fin 200]).2[i+1]? = some (PdFloat.fin 0))) :=
  ⟨by decide, by decide,
    claim_C3_growth_rates_no_nan exRecords2 GroupField.product Period.daily
      (by decide) ("商品A", [PdFloat.fin 0, PdFloat.fin 200]) (by decide)⟩

theorem rollingMeanOpt_isSome (w : ℕ) (hw : 1 ≤ w) (xs : List ℚ) :
    ∀ u ∈ rollingMeanOpt w 1 xs, u.isSome = true := by
  intro u hu
  unfold rollingMeanOpt at hu
  obtain ⟨i, hi, rfl⟩ := List.mem_map.mp hu
  rw [List.mem_range] at hi
  have hlen : 1 ≤ ((xs.take (i + 1)).drop (i + 1 - w)).length := by
    rw [List.length_drop, List.length_take]
    omega
  show (if 1 ≤ ((xs.take (i + 1)).drop (i + 1 - w)).length then
    some (((xs.take (i + 1)).drop (i + 1 - w)).sum /
      (((xs.take (i + 1)).drop (i + 1 - w)).length : ℚ)) else none).isSome = true
  rw [if_pos hlen]
  rfl

/-- C8: for every non-empty canonical record set and every granularity,
the 7-period and 30-period moving-average columns of `analyze_trends` hold
a defined (non-NaN) value at every period: `min_periods=1` makes the
window expanding at the start of the series. -/
theorem claim_C8_moving_averages_defined (records : List Record) (p : Period)
    (_h : records ≠ []) :
    (∀ v ∈ (analyzeTrends records p).ma7, v.isSome = true) ∧
    (∀ v ∈ (analyzeTrends records p).ma30, v.isSome = true) := by
  constructor <;> intro v hv <;>
  · obtain ⟨u, hu, rfl⟩ := List.mem_map.mp hv
    have hsome := rollingMeanOpt_isSome _ (by omega) _ u hu
    cases u with
    | none => simp at hsome
    | some a => rfl

/-- C8 witness: the theorem applied at the two-day scenario, daily
granularity. -/
theorem claim_C8_witness :
    exRecords2 ≠ [] ∧
    ((∀ v ∈ (analyzeTrends exRecords2 Period.daily).ma7, v.isSome = true) ∧
      (∀ v ∈ (analyzeTrends exRecords2 Period.daily).ma30, v.isSome = true)) :=
  ⟨by decide, claim_C8_moving_averages_defined exRecords2 Period.daily (by decide)⟩

theorem binIdx_bounds (e1 e2 e3 v : ℚ) : 0 ≤ binIdx e1 e2 e3 v ∧ binIdx e1 e2 e3 v ≤ 3 := by
  unfold binIdx
  split_ifs <;> omega

/-- Every quartile label lies in 1..4 (forward 1..4 or reversed 4..1). -/
theorem qcutLabel_bounds (e1 e2 e3 : ℚ) (reverse : Bool) (v : ℚ) :
    1 ≤ qcutLabel e1 e2 e3 reverse v ∧ qcutLabel e1 e2 e3 reverse v ≤ 4 := by
  have hb := binIdx_bounds e1 e2 e3 v
  unfold qcutLabel
  split <;> omega

/-- Labels produced by a successful `pd.qcut` lie in 1..4. -/
theorem qcut4_bounds {vals : List ℚ} {reverse : Bool} {labels : List ℤ}
    (h : qcut4 vals reverse = some labels) : ∀ x ∈ labels, 1 ≤ x ∧ x ≤ 4 := by
  simp only [qcut4] at h
  split at h
  · simp at h
  · injection h with h
    subst h
    intro x hx
    obtain ⟨v, _, rfl⟩ := List.mem_map.mp hx
    exact qcutLabel_bounds _ _ _ _ v

/-- Every value held by a `score_rfm` result series lies in 1..4 (the
degenerate branches hold 2, qcut labels lie in 1..4). -/
theorem scoreRFM_bounds (s : List (SIdx × ℚ)) (reverse : Bool) :
    ∀ pr ∈ scoreRFM s reverse, 1 ≤ pr.2 ∧ pr.2 ≤ 4 := by
  intro pr hpr
  simp only [scoreRFM] at hpr
  split at hpr
  · obtain ⟨i, _, rfl⟩ := List.mem_map.mp hpr
    omega
  · split at hpr
    · next labels heq =>
        have := (List.of_mem_zip (a := pr.1) (b := pr.2) (by simpa using hpr)).2
        exact qcut4_bounds heq pr.2 this
    · obtain ⟨i, _, rfl⟩ := List.mem_map.mp hpr
      omega

/-- After index alignment and `fillna(1)`, every assigned score lies in
1..4: a label found in the series carries its 1..4 value, and a missing
label becomes 1. -/
theorem colAssign_bounds (customers : List String) (scores : List (SIdx × ℤ))
    (hs : ∀ pr ∈ scores, 1 ≤ pr.2 ∧ pr.2 ≤ 4) :
    ∀ v ∈ colAssign customers scores, 1 ≤ v ∧ v ≤ 4 := by
  intro v hv
  unfold colAssign at hv
  obtain ⟨c, _, rfl⟩ := List.mem_map.mp hv
  cases hf : scores.find? (fun pr => pr.1 = SIdx.str c) with
  | none => simp
  | some pr =>
      simpa using hs pr (List.mem_of_find?_eq_some hf)

/-- C4: every RFM profile of a non-empty canonical record set carries
integer scores in [1,4] and a segment determined by the documented
priority order, drawn from the four labels; the computation is a pure
function, hence deterministic. -/
theorem claim_C4_rfm_scores_valid (records : List Record) (_h : records ≠ [])
    (prof : RFMProfile) (hp : prof ∈ computeRFM records) :
    (1 ≤ prof.r ∧ prof.r ≤ 4) ∧ (1 ≤ prof.f ∧ prof.f ≤ 4) ∧ (1 ≤ prof.m ∧ prof.m ≤ 4) ∧
    prof.segment = (if 3 ≤ prof.r ∧ 3 ≤ prof.f ∧ 3 ≤ prof.m then "VIPカスタマー"
      else if 3 ≤ prof.r ∧ 3 ≤ prof.f then "優良カスタマー"
      else if 2 ≤ prof.r ∧ 2 ≤ prof.f then "通常カスタマー"
      else "要フォローカスタマー") ∧
    prof.segment ∈ ["VIPカスタマー", "優良カスタマー", "通常カスタマー", "要フォローカスタマー"] ∧
    computeRFM records = computeRFM records := by
  simp only [computeRFM] at hp
  obtain ⟨x, hx, rfl⟩ := List.mem_map.mp hp
  obtain ⟨cst, xr, xf, xm⟩ := x
  have hx2 := (List.of_mem_zip hx).2
  have hxr := (List.of_mem_zip hx2).1
  have hx3 := (List.of_mem_zip hx2).2
  have hxf := (List.of_mem_zip hx3).1
  have hxm := (List.of_mem_zip hx3).2
  refine ⟨?_, ?_, ?_, rfl, ?_, rfl⟩
  · exact colAssign_bounds _ _ (scoreRFM_bounds _ _) xr hxr
  · exact colAssign_bounds _ _ (scoreRFM_bounds _ _) xf hxf
  · exact colAssign_bounds _ _ (scoreRFM_bounds _ _) xm hxm
  · show segmentCustomer xr xf xm ∈ _
    unfold segmentCustomer
    split_ifs <;> simp

/-- C4 witness: the theorem applied at the two-day scenario. -/
theorem claim_C4_witness :
    exRecords2 ≠ [] ∧
    ({ customer := "顧客1", recency := 0, frequency := 2, monetary := 4000,
       r := 1, f := 1, m := 1, segment := "要フォローカスタマー" } : RFMProfile) ∈
      computeRFM exRecords2 ∧
    ((1 ≤ (1 : ℤ) ∧ (1 : ℤ) ≤ 4) ∧ (1 ≤ (1 : ℤ) ∧ (1 : ℤ) ≤ 4) ∧
      (1 ≤ (1 : ℤ) ∧ (1 : ℤ) ≤ 4) ∧
      ("要フォローカスタマー" : String) =
        (if 3 ≤ (1 : ℤ) ∧ 3 ≤ (1 : ℤ) ∧ 3 ≤ (1 : ℤ) then "VIPカスタマー"
          else if 3 ≤ (1 : ℤ) ∧ 3 ≤ (1 : ℤ) then "優良カスタマー"
          else if 2 ≤ (1 : ℤ) ∧ 2 ≤ (1 : ℤ) then "通常カスタマー"
          else "要フォローカスタマー") ∧
      ("要フォローカスタマー" : String) ∈
        ["VIPカスタマー", "優良カスタマー", "通常カスタマー", "要フォローカスタマー"] ∧
      computeRFM exRecords2 = computeRFM exRecords2) :=
  ⟨by decide, by decide,
    claim_C4_rfm_scores_valid exRecords2 (by decide)
      { customer := "顧客1", recency := 0, frequency := 2, monetary := 4000,
        r := 1, f := 1, m := 1, segment := "要フォローカスタマー" } (by decide)⟩

/-- C1: on a record set whose measures are all degenerate (a single
customer with a single transaction), the final RFM scores are 1, not the
neutral 2: `score_rfm` itself returns the neutral series of 2s (second
conjunct), but that series carries a fresh integer RangeIndex, so the
column assignment into the customer-indexed frame aligns to NaN and
`fillna(1)` turns every score into 1 (first conjunct). -/
theorem claim_C1_degenerate_scores_collapse_to_one :
    computeRFM exRecords1 =
      [{ customer := "顧客1", recency := 0, frequency := 1, monetary := 100,
         r := 1, f := 1, m := 1, segment := "要フォローカスタマー" }] ∧
    scoreRFM (measureSeries exRecords1 (fun c => (frequencyOf exRecords1 c : ℚ))) false =
      [(SIdx.int 0, 2)] := by
  constructor
  · decide
  · decide

/-- C7: `validate_analysis_results` never propagates an exception: for
every input (valid or not) it returns either the successful report of its
check body, or — when the body raises internally — the single failure
entry `{'エラー': False}`.  The empty record set is a concrete input on
which the internal `pd.date_range` call raises and the single failure
entry is returned. -/
theorem claim_C7_validator_never_throws :
    (∀ df : List Record,
      (∃ r, validationBody df = Except.ok r ∧ validateAnalysisResults df = r) ∨
      (∃ e, validationBody df = Except.error e ∧
        validateAnalysisResults df = [("エラー", false)])) ∧
    validateAnalysisResults [] = [("エラー", false)] := by
  constructor
  · intro df
    cases h : validationBody df with
    | ok r => exact Or.inl ⟨r, rfl, by simp [validateAnalysisResults, h]⟩
    | error e => exact Or.inr ⟨e, rfl, by simp [validateAnalysisResults, h]⟩
  · decide

end DataProcessor
